import Mathlib

/-!
# Verification of the box-plot statistics engine of `count-fasta-plots`

This file embeds the statistics fragment of `create_box_plot`
(`src/main.rs`, lines 49–95) and proves / refutes the specification's
claims about it.

Modelling conventions:

* An `f64` sample is modelled by `Option ℚ`: `some q` is a finite double
  whose arithmetic is modelled exactly by the rational `q` (every
  operation the fragment performs on the concrete inputs considered —
  `x * 0.25`, `x * 0.5`, `x * 0.75` with `x` a small integer, sums,
  differences and products with `1.5` — is exact in `f64` at the sizes
  involved, so rational arithmetic is a faithful model); `none` is a NaN.
* Runtime faults (the `unwrap()` of `partial_cmp` returning `None`, and
  slice indexing out of bounds) are modelled by the `Outcome.panicked`
  constructor.
* `sort_by(|a, b| a.partial_cmp(b).unwrap())` is modelled by a
  comparison-based sort (insertion sort) that panics as soon as the
  comparator is handed a NaN.  Any comparison-based sort must compare a
  NaN element at least once when the slice has two or more elements, so
  the panic behaviour agrees with the Rust sort on such inputs.
* The drawing calls are modelled by recording the data coordinates they
  are given (box corners, median, the two whisker segments, the outlier
  points) in a result record; pixel mapping is outside the fragment.
-/

namespace CountFasta

/-- A modelled `f64` sample: `some q` is a finite double, `none` a NaN. -/
abbrev F : Type := Option ℚ

/-- `a.partial_cmp(&b)` on modelled doubles: Rust's `None` (here
`Option.none`) whenever a NaN is involved, otherwise the comparison of
the finite values. -/
def pcmp : F → F → Option Ordering
  | some a, some b => some (compare a b)
  | _, _ => none

/-- Outcome of running a fragment that can panic (comparator `unwrap()`
on `None`, or slice indexing out of bounds). -/
inductive Outcome (α : Type) where
  | ok : α → Outcome α
  | panicked : Outcome α
deriving DecidableEq, Repr

/-- Insertion of one element into an already sorted list, driven by the
panicking comparator `|a, b| a.partial_cmp(b).unwrap()` of line 50:
panics the moment the comparator sees a NaN. -/
def insertByPcmp (x : F) : List F → Outcome (List F)
  | [] => .ok [x]
  | y :: ys =>
    match pcmp x y with
    | Option.none => .panicked
    | some Ordering.gt =>
      match insertByPcmp x ys with
      | .ok zs => .ok (y :: zs)
      | .panicked => .panicked
    | some _ => .ok (x :: y :: ys)

/-- `sorted_data.sort_by(|a, b| a.partial_cmp(b).unwrap())` (line 50),
modelled as an insertion sort over the panicking comparator. -/
def sortByPcmp : List F → Outcome (List F)
  | [] => .ok []
  | x :: xs =>
    match sortByPcmp xs with
    | .ok s => insertByPcmp x s
    | .panicked => .panicked

/-- `f64` subtraction: NaN-propagating. -/
def fsub : F → F → F
  | some a, some b => some (a - b)
  | _, _ => none

/-- `f64` addition: NaN-propagating. -/
def fadd : F → F → F
  | some a, some b => some (a + b)
  | _, _ => none

/-- `f64` multiplication: NaN-propagating. -/
def fmul : F → F → F
  | some a, some b => some (a * b)
  | _, _ => none

/-- `f64` strict `<`: false whenever a NaN is involved. -/
def fltb : F → F → Bool
  | some a, some b => decide (a < b)
  | _, _ => false

/-- The data coordinates handed to the drawing calls of
`create_box_plot` (lines 56–95): the selected quartiles, the derived
fences, the two whisker segments `[(lower_fence, q1)]` and
`[(q3, upper_fence)]` exactly as built on lines 77–84, and the outlier
point list of lines 87–91. -/
structure BoxPlotF where
  q1 : F
  median : F
  q3 : F
  iqr : F
  lower_fence : F
  upper_fence : F
  whisker_lo : F × F
  whisker_hi : F × F
  outliers : List F
deriving DecidableEq, Repr

/-- The statistics fragment of `create_box_plot` (src/main.rs lines
49–95): sort a copy of the data with the panicking comparator, select
the three quartiles by `(len as f64 * c) as usize` indexing (an
out-of-bounds index is a panic), derive `iqr` and the fences, and record
the drawn whisker segments and the outlier list. -/
def create_box_plot (data : List F) : Outcome BoxPlotF :=
  match sortByPcmp data with
  | .panicked => .panicked
  | .ok sorted_data =>
    let q1Idx : ℕ := (((sorted_data.length : ℚ) * (1/4)).floor).toNat
    let q2Idx : ℕ := (((sorted_data.length : ℚ) * (1/2)).floor).toNat
    let q3Idx : ℕ := (((sorted_data.length : ℚ) * (3/4)).floor).toNat
    match sorted_data[q1Idx]?, sorted_data[q2Idx]?, sorted_data[q3Idx]? with
    | some q1v, some medv, some q3v =>
      let iqrv := fsub q3v q1v
      let lf := fsub q1v (fmul (some (3/2)) iqrv)
      let uf := fadd q3v (fmul (some (3/2)) iqrv)
      .ok { q1 := q1v
            median := medv
            q3 := q3v
            iqr := iqrv
            lower_fence := lf
            upper_fence := uf
            whisker_lo := (lf, q1v)
            whisker_hi := (q3v, uf)
            outliers := sorted_data.filter fun x => fltb x lf || fltb uf x }
    | _, _, _ => .panicked

/-! ## The NaN-free layer

On NaN-free input the comparator never panics and agrees with the total
order of `ℚ`, so the fragment specialises to the plain functions below
(the bridge is proved in `create_box_plot_map_some`). -/

/-- Line 49–50 on NaN-free data: the ascending sorted copy. -/
def sorted_data (data : List ℚ) : List ℚ := data.insertionSort (· ≤ ·)

/-- `(sorted_data.len() as f64 * 0.25) as usize` (line 52); `0.25` is
exactly `1/4` in `f64` and the product is exact for any slice length. -/
def q1_idx (n : ℕ) : ℕ := (((n : ℚ) * (1/4)).floor).toNat

/-- `(sorted_data.len() as f64 * 0.5) as usize` (line 53). -/
def q2_idx (n : ℕ) : ℕ := (((n : ℚ) * (1/2)).floor).toNat

/-- `(sorted_data.len() as f64 * 0.75) as usize` (line 54). -/
def q3_idx (n : ℕ) : ℕ := (((n : ℚ) * (3/4)).floor).toNat

/-- `sorted_data[q1_idx]` (line 56); out of range gives the junk value
`0` here, and a panic in the faithful layer (`create_box_plot`). -/
def q1 (data : List ℚ) : ℚ := (sorted_data data).getD (q1_idx data.length) 0

/-- `sorted_data[q2_idx]` (line 57). -/
def median (data : List ℚ) : ℚ := (sorted_data data).getD (q2_idx data.length) 0

/-- `sorted_data[q3_idx]` (line 58). -/
def q3 (data : List ℚ) : ℚ := (sorted_data data).getD (q3_idx data.length) 0

/-- `let iqr = q3 - q1;` (line 60). -/
def iqr (data : List ℚ) : ℚ := q3 data - q1 data

/-- `let lower_fence = q1 - 1.5 * iqr;` (line 61); `1.5 = 3/2` exactly. -/
def lower_fence (data : List ℚ) : ℚ := q1 data - 3/2 * iqr data

/-- `let upper_fence = q3 + 1.5 * iqr;` (line 62). -/
def upper_fence (data : List ℚ) : ℚ := q3 data + 3/2 * iqr data

/-- The lower whisker segment as drawn on lines 77–80: from
`(lower_fence, 0.5)` to `(q1, 0.5)` — its endpoints in data coordinates. -/
def lower_whisker (data : List ℚ) : ℚ × ℚ := (lower_fence data, q1 data)

/-- The upper whisker segment as drawn on lines 81–84: from `(q3, 0.5)`
to `(upper_fence, 0.5)`. -/
def upper_whisker (data : List ℚ) : ℚ × ℚ := (q3 data, upper_fence data)

/-- The outlier list of lines 87–91: the samples of the sorted copy that
are strictly outside the fences, in the sorted copy's order. -/
def outliers (data : List ℚ) : List ℚ :=
  (sorted_data data).filter fun x =>
    decide (x < lower_fence data) || decide (upper_fence data < x)

/-- From the spec's words (§4.2, step 1), for comparison with the code:
the smallest value in the sorted sample sequence that is `>=
lower_fence`, falling back to `q1` when no such value exists.  The code
computes no such value; this definition exists only to compare the
spec's claimed whisker endpoint with the endpoint the code draws. -/
def spec_whisker_min (data : List ℚ) : ℚ :=
  match (sorted_data data).find? (fun x => decide (lower_fence data ≤ x)) with
  | some v => v
  | none => q1 data

/-- From the spec's words (§4.2, step 2): the largest value that is
`<= upper_fence`, falling back to `q3`. -/
def spec_whisker_max (data : List ℚ) : ℚ :=
  match (sorted_data data).reverse.find? (fun x => decide (x ≤ upper_fence data)) with
  | some v => v
  | none => q3 data

/-- Outlier test of line 89: strictly outside a fence. -/
def is_outlier (data : List ℚ) (x : ℚ) : Bool :=
  decide (x < lower_fence data) || decide (upper_fence data < x)

/-- A non-outlier strictly below the box: lies on the lower whisker side. -/
def in_lower_region (data : List ℚ) (x : ℚ) : Bool :=
  !is_outlier data x && decide (x < q1 data)

/-- A sample inside the box interval `[q1, q3]` (and inside the fences). -/
def in_box (data : List ℚ) (x : ℚ) : Bool :=
  !is_outlier data x && decide (q1 data ≤ x) && decide (x ≤ q3 data)

/-- A non-outlier strictly above the box: lies on the upper whisker side. -/
def in_upper_region (data : List ℚ) (x : ℚ) : Bool :=
  !is_outlier data x && decide (q3 data < x)

/-- How many samples fall on the lower whisker side. -/
def count_lower (data : List ℚ) : ℕ := data.countP (in_lower_region data)

/-- How many samples fall in the box. -/
def count_box (data : List ℚ) : ℕ := data.countP (in_box data)

/-- How many samples fall on the upper whisker side. -/
def count_upper (data : List ℚ) : ℕ := data.countP (in_upper_region data)

/-- How many samples are outliers. -/
def count_outliers (data : List ℚ) : ℕ := data.countP (is_outlier data)

/-- The spec's concrete scenario with an outlier:
`[1,2,3,4,5,6,7,8,9,100]`. -/
def data10 : List ℚ := [1, 2, 3, 4, 5, 6, 7, 8, 9, 100]

/-! ## Helper lemmas -/

/-- `Rat.floor` agrees with the `Int.floor` of the `FloorRing` instance. -/
lemma rat_floor_eq_int_floor (q : ℚ) : q.floor = ⌊q⌋ :=
  (Rat.floor_def' q).trans Rat.floor_def.symm

lemma q1_idx_eq (n : ℕ) : q1_idx n = n / 4 := by
  unfold q1_idx
  rw [rat_floor_eq_int_floor, Int.floor_toNat]
  have h : (n : ℚ) * (1/4) = (n : ℚ) / ((4:ℕ) : ℚ) := by push_cast; ring
  rw [h, Rat.natFloor_natCast_div_natCast]

lemma q2_idx_eq (n : ℕ) : q2_idx n = n / 2 := by
  unfold q2_idx
  rw [rat_floor_eq_int_floor, Int.floor_toNat]
  have h : (n : ℚ) * (1/2) = (n : ℚ) / ((2:ℕ) : ℚ) := by push_cast; ring
  rw [h, Rat.natFloor_natCast_div_natCast]

lemma q3_idx_eq (n : ℕ) : q3_idx n = 3 * n / 4 := by
  unfold q3_idx
  rw [rat_floor_eq_int_floor, Int.floor_toNat]
  have h : (n : ℚ) * (3/4) = ((3 * n : ℕ) : ℚ) / ((4:ℕ) : ℚ) := by push_cast; ring
  rw [h, Rat.natFloor_natCast_div_natCast]

lemma q1_idx_lt (n : ℕ) (h : n ≠ 0) : q1_idx n < n := by rw [q1_idx_eq]; omega

lemma q2_idx_lt (n : ℕ) (h : n ≠ 0) : q2_idx n < n := by rw [q2_idx_eq]; omega

lemma q3_idx_lt (n : ℕ) (h : n ≠ 0) : q3_idx n < n := by rw [q3_idx_eq]; omega

lemma q1_idx_le_q2_idx (n : ℕ) : q1_idx n ≤ q2_idx n := by
  rw [q1_idx_eq, q2_idx_eq]; omega

lemma q2_idx_le_q3_idx (n : ℕ) : q2_idx n ≤ q3_idx n := by
  rw [q2_idx_eq, q3_idx_eq]; omega

lemma sorted_data_sorted (data : List ℚ) : List.Sorted (· ≤ ·) (sorted_data data) :=
  List.sorted_insertionSort _ data

lemma sorted_data_perm (data : List ℚ) : (sorted_data data).Perm data :=
  List.perm_insertionSort _ data

lemma sorted_data_length (data : List ℚ) : (sorted_data data).length = data.length :=
  List.length_insertionSort _ data

lemma getD_eq_getElem_of_lt (l : List ℚ) (i : ℕ) (h : i < l.length) :
    l.getD i 0 = l[i] := by
  simp [List.getD_eq_getElem?_getD, List.getElem?_eq_getElem h]

lemma getD_mem_of_lt (l : List ℚ) (i : ℕ) (h : i < l.length) :
    l.getD i 0 ∈ l := by
  rw [getD_eq_getElem_of_lt l i h]
  exact List.getElem_mem h

lemma sorted_getD_mono {l : List ℚ} (hs : List.Sorted (· ≤ ·) l) {i j : ℕ}
    (hij : i ≤ j) (hj : j < l.length) : l.getD i 0 ≤ l.getD j 0 := by
  have hi : i < l.length := lt_of_le_of_lt hij hj
  rw [getD_eq_getElem_of_lt l i hi, getD_eq_getElem_of_lt l j hj]
  have h := hs.rel_get_of_le (a := ⟨i, hi⟩) (b := ⟨j, hj⟩) (Fin.mk_le_mk.mpr hij)
  simpa [List.get_eq_getElem] using h

/-! ## The bridge: on NaN-free input the panicking layer computes the
NaN-free layer -/

lemma insertByPcmp_map_some (x : ℚ) (l : List ℚ) :
    insertByPcmp (some x) (l.map some) =
      .ok ((List.orderedInsert (· ≤ ·) x l).map some) := by
  induction l with
  | nil => rfl
  | cons y ys ih =>
    rcases h : compare x y with _ | _ | _
    · have hxy : x ≤ y := le_of_lt (compare_lt_iff_lt.mp h)
      simp [insertByPcmp, pcmp, h, List.orderedInsert, if_pos hxy]
    · have hxy : x ≤ y := le_of_eq (compare_eq_iff_eq.mp h)
      simp [insertByPcmp, pcmp, h, List.orderedInsert, if_pos hxy]
    · have hxy : ¬ x ≤ y := not_le.mpr (compare_gt_iff_gt.mp h)
      simp [insertByPcmp, pcmp, h, List.orderedInsert, if_neg hxy, ih]

lemma sortByPcmp_map_some (l : List ℚ) :
    sortByPcmp (l.map some) = .ok ((List.insertionSort (· ≤ ·) l).map some) := by
  induction l with
  | nil => rfl
  | cons x xs ih =>
    simp [sortByPcmp, List.insertionSort, ih, insertByPcmp_map_some]

/-- The bridge: on non-empty NaN-free input, `create_box_plot` does not
panic and computes exactly the NaN-free layer's statistics. -/
theorem create_box_plot_map_some (l : List ℚ) (h : l ≠ []) :
    create_box_plot (l.map some) = .ok
      { q1 := some (q1 l)
        median := some (median l)
        q3 := some (q3 l)
        iqr := some (iqr l)
        lower_fence := some (lower_fence l)
        upper_fence := some (upper_fence l)
        whisker_lo := (some (lower_fence l), some (q1 l))
        whisker_hi := (some (q3 l), some (upper_fence l))
        outliers := (outliers l).map some } := by
  have hn : l.length ≠ 0 := fun hh => h (List.length_eq_zero.mp hh)
  have hq1 : q1_idx l.length < (List.insertionSort (· ≤ ·) l).length := by
    rw [List.length_insertionSort]; exact q1_idx_lt l.length hn
  have hq2 : q2_idx l.length < (List.insertionSort (· ≤ ·) l).length := by
    rw [List.length_insertionSort]; exact q2_idx_lt l.length hn
  have hq3 : q3_idx l.length < (List.insertionSort (· ≤ ·) l).length := by
    rw [List.length_insertionSort]; exact q3_idx_lt l.length hn
  have e1 : (List.map some (List.insertionSort (· ≤ ·) l))[q1_idx l.length]? =
      some (some (q1 l)) := by
    rw [List.getElem?_map, List.getElem?_eq_getElem hq1]
    simp only [q1, sorted_data, getD_eq_getElem_of_lt _ _ hq1]
    rfl
  have e2 : (List.map some (List.insertionSort (· ≤ ·) l))[q2_idx l.length]? =
      some (some (median l)) := by
    rw [List.getElem?_map, List.getElem?_eq_getElem hq2]
    simp only [median, sorted_data, getD_eq_getElem_of_lt _ _ hq2]
    rfl
  have e3 : (List.map some (List.insertionSort (· ≤ ·) l))[q3_idx l.length]? =
      some (some (q3 l)) := by
    rw [List.getElem?_map, List.getElem?_eq_getElem hq3]
    simp only [q3, sorted_data, getD_eq_getElem_of_lt _ _ hq3]
    rfl
  simp only [create_box_plot, sortByPcmp_map_some, List.length_map,
    List.length_insertionSort]
  simp only [q1_idx, q2_idx, q3_idx] at e1 e2 e3
  rw [e1, e2, e3]
  simp only [fsub, fadd, fmul, Outcome.ok.injEq, BoxPlotF.mk.injEq,
    CountFasta.lower_fence, CountFasta.upper_fence, CountFasta.iqr,
    CountFasta.outliers, CountFasta.sorted_data, List.filter_map,
    Prod.mk.injEq, true_and, and_true, and_self]
  refine congrArg (List.map some) (List.filter_congr ?_)
  intro x hx
  simp [fltb, Function.comp]

lemma sorted_data_nil : sorted_data ([] : List ℚ) = [] := rfl

lemma q1_nil : q1 [] = 0 := by
  simp [CountFasta.q1, q1_idx_eq, sorted_data_nil]

lemma q3_nil : q3 [] = 0 := by
  simp [CountFasta.q3, q3_idx_eq, sorted_data_nil]

lemma q1_le_median (data : List ℚ) (h : data ≠ []) : q1 data ≤ median data := by
  have hn : data.length ≠ 0 := fun hh => h (List.length_eq_zero.mp hh)
  have hlt : q2_idx data.length < (sorted_data data).length := by
    rw [sorted_data_length]; exact q2_idx_lt _ hn
  exact sorted_getD_mono (sorted_data_sorted data) (q1_idx_le_q2_idx _) hlt

lemma median_le_q3 (data : List ℚ) (h : data ≠ []) : median data ≤ q3 data := by
  have hn : data.length ≠ 0 := fun hh => h (List.length_eq_zero.mp hh)
  have hlt : q3_idx data.length < (sorted_data data).length := by
    rw [sorted_data_length]; exact q3_idx_lt _ hn
  exact sorted_getD_mono (sorted_data_sorted data) (q2_idx_le_q3_idx _) hlt

lemma q1_le_q3 (data : List ℚ) : q1 data ≤ q3 data := by
  rcases eq_or_ne data [] with rfl | h
  · rw [q1_nil, q3_nil]
  · exact le_trans (q1_le_median data h) (median_le_q3 data h)

lemma iqr_nonneg (data : List ℚ) : 0 ≤ iqr data :=
  sub_nonneg.mpr (q1_le_q3 data)

lemma lower_fence_le_q1 (data : List ℚ) : lower_fence data ≤ q1 data := by
  have h := iqr_nonneg data
  show q1 data - 3/2 * iqr data ≤ q1 data
  linarith

lemma q3_le_upper_fence (data : List ℚ) : q3 data ≤ upper_fence data := by
  have h := iqr_nonneg data
  show q3 data ≤ q3 data + 3/2 * iqr data
  linarith

lemma lower_fence_le_upper_fence (data : List ℚ) :
    lower_fence data ≤ upper_fence data :=
  le_trans (lower_fence_le_q1 data)
    (le_trans (q1_le_q3 data) (q3_le_upper_fence data))

lemma q1_mem (data : List ℚ) (h : data ≠ []) : q1 data ∈ data := by
  have hn : data.length ≠ 0 := fun hh => h (List.length_eq_zero.mp hh)
  have hlt : q1_idx data.length < (sorted_data data).length := by
    rw [sorted_data_length]; exact q1_idx_lt _ hn
  exact (sorted_data_perm data).mem_iff.mp (getD_mem_of_lt _ _ hlt)

lemma median_mem (data : List ℚ) (h : data ≠ []) : median data ∈ data := by
  have hn : data.length ≠ 0 := fun hh => h (List.length_eq_zero.mp hh)
  have hlt : q2_idx data.length < (sorted_data data).length := by
    rw [sorted_data_length]; exact q2_idx_lt _ hn
  exact (sorted_data_perm data).mem_iff.mp (getD_mem_of_lt _ _ hlt)

lemma q3_mem (data : List ℚ) (h : data ≠ []) : q3 data ∈ data := by
  have hn : data.length ≠ 0 := fun hh => h (List.length_eq_zero.mp hh)
  have hlt : q3_idx data.length < (sorted_data data).length := by
    rw [sorted_data_length]; exact q3_idx_lt _ hn
  exact (sorted_data_perm data).mem_iff.mp (getD_mem_of_lt _ _ hlt)

lemma find_first_le_of_sorted {p : ℚ → Bool} :
    ∀ {l : List ℚ} {v y : ℚ}, List.Sorted (· ≤ ·) l → l.find? p = some v →
      y ∈ l → p y = true → v ≤ y
  | [], _, _, _, hf, _, _ => by simp at hf
  | a :: t, v, y, hs, hf, hy, hp => by
    by_cases ha : p a = true
    · rw [List.find?_cons_of_pos t ha, Option.some.injEq] at hf
      subst hf
      rcases List.mem_cons.mp hy with rfl | hyt
      · exact le_refl _
      · exact (List.sorted_cons.mp hs).1 y hyt
    · rw [List.find?_cons_of_neg t ha] at hf
      rcases List.mem_cons.mp hy with rfl | hyt
      · exact absurd hp ha
      · exact find_first_le_of_sorted (List.sorted_cons.mp hs).2 hf hyt hp

lemma find_first_ge_of_sorted {p : ℚ → Bool} :
    ∀ {l : List ℚ} {v y : ℚ}, List.Sorted (· ≥ ·) l → l.find? p = some v →
      y ∈ l → p y = true → y ≤ v
  | [], _, _, _, hf, _, _ => by simp at hf
  | a :: t, v, y, hs, hf, hy, hp => by
    by_cases ha : p a = true
    · rw [List.find?_cons_of_pos t ha, Option.some.injEq] at hf
      subst hf
      rcases List.mem_cons.mp hy with rfl | hyt
      · exact le_refl _
      · exact (List.sorted_cons.mp hs).1 y hyt
    · rw [List.find?_cons_of_neg t ha] at hf
      rcases List.mem_cons.mp hy with rfl | hyt
      · exact absurd hp ha
      · exact find_first_ge_of_sorted (List.sorted_cons.mp hs).2 hf hyt hp

lemma q1_mem_sorted (data : List ℚ) (h : data ≠ []) :
    q1 data ∈ sorted_data data := by
  have hn : data.length ≠ 0 := fun hh => h (List.length_eq_zero.mp hh)
  have hlt : q1_idx data.length < (sorted_data data).length := by
    rw [sorted_data_length]; exact q1_idx_lt _ hn
  exact getD_mem_of_lt _ _ hlt

lemma q3_mem_sorted (data : List ℚ) (h : data ≠ []) :
    q3 data ∈ sorted_data data := by
  have hn : data.length ≠ 0 := fun hh => h (List.length_eq_zero.mp hh)
  have hlt : q3_idx data.length < (sorted_data data).length := by
    rw [sorted_data_length]; exact q3_idx_lt _ hn
  exact getD_mem_of_lt _ _ hlt

/-- Even under the spec's own definition of `whisker_min`, the ordering
side of the box holds: the first sorted sample `≥ lower_fence` is at
most `q1`. -/
lemma spec_whisker_min_le_q1 (data : List ℚ) (h : data ≠ []) :
    spec_whisker_min data ≤ q1 data := by
  rcases hf : (sorted_data data).find? (fun x => decide (lower_fence data ≤ x))
    with _ | v
  · simp [spec_whisker_min, hf]
  · have hv := find_first_le_of_sorted (sorted_data_sorted data) hf
      (q1_mem_sorted data h) (by simp [lower_fence_le_q1 data])
    simpa [spec_whisker_min, hf] using hv

/-- Under the spec's own definition of `whisker_max`, the last sorted
sample `≤ upper_fence` is at least `q3`. -/
lemma q3_le_spec_whisker_max (data : List ℚ) (h : data ≠ []) :
    q3 data ≤ spec_whisker_max data := by
  rcases hf : (sorted_data data).reverse.find?
      (fun x => decide (x ≤ upper_fence data)) with _ | v
  · simp [spec_whisker_max, hf]
  · have hrev : List.Sorted (· ≥ ·) (sorted_data data).reverse :=
      List.pairwise_reverse.mpr (sorted_data_sorted data)
    have hv := find_first_ge_of_sorted hrev hf
      (List.mem_reverse.mpr (q3_mem_sorted data h))
      (by simp [q3_le_upper_fence data])
    simpa [spec_whisker_max, hf] using hv

/-! ## Concrete evaluations on the spec's scenario `[1,...,9,100]` -/

lemma data10_ne_nil : data10 ≠ [] := by simp [data10]

lemma sorted_data10 : sorted_data data10 = data10 := by decide

lemma q1_data10 : q1 data10 = 3 := by
  show (sorted_data data10).getD (q1_idx data10.length) 0 = 3
  rw [sorted_data10, q1_idx_eq]
  decide

lemma median_data10 : median data10 = 6 := by
  show (sorted_data data10).getD (q2_idx data10.length) 0 = 6
  rw [sorted_data10, q2_idx_eq]
  decide

lemma q3_data10 : q3 data10 = 8 := by
  show (sorted_data data10).getD (q3_idx data10.length) 0 = 8
  rw [sorted_data10, q3_idx_eq]
  decide

lemma iqr_data10 : iqr data10 = 5 := by
  show q3 data10 - q1 data10 = 5
  rw [q3_data10, q1_data10]
  norm_num

lemma lower_fence_data10 : lower_fence data10 = -9/2 := by
  show q1 data10 - 3/2 * iqr data10 = -9/2
  rw [q1_data10, iqr_data10]
  norm_num

lemma upper_fence_data10 : upper_fence data10 = 31/2 := by
  show q3 data10 + 3/2 * iqr data10 = 31/2
  rw [q3_data10, iqr_data10]
  norm_num

lemma outliers_data10 : outliers data10 = [100] := by
  show (sorted_data data10).filter (fun x =>
    decide (x < lower_fence data10) || decide (upper_fence data10 < x)) = [100]
  rw [sorted_data10, lower_fence_data10, upper_fence_data10]
  norm_num [data10, List.filter]

lemma spec_whisker_min_data10 : spec_whisker_min data10 = 1 := by
  have hf : (sorted_data data10).find?
      (fun x => decide (lower_fence data10 ≤ x)) = some 1 := by
    rw [sorted_data10, lower_fence_data10]
    norm_num [data10, List.find?]
  simp [spec_whisker_min, hf]

lemma spec_whisker_max_data10 : spec_whisker_max data10 = 9 := by
  have hf : (sorted_data data10).reverse.find?
      (fun x => decide (x ≤ upper_fence data10)) = some 9 := by
    rw [sorted_data10, upper_fence_data10]
    norm_num [data10, List.find?]
  simp [spec_whisker_max, hf]

/-! ## Single-element inputs -/

lemma q1_single (x : ℚ) : q1 [x] = x := by
  show (sorted_data [x]).getD (q1_idx 1) 0 = x
  rw [show q1_idx 1 = 0 by simp [q1_idx_eq]]
  rfl

lemma median_single (x : ℚ) : median [x] = x := by
  show (sorted_data [x]).getD (q2_idx 1) 0 = x
  rw [show q2_idx 1 = 0 by simp [q2_idx_eq]]
  rfl

lemma q3_single (x : ℚ) : q3 [x] = x := by
  show (sorted_data [x]).getD (q3_idx 1) 0 = x
  rw [show q3_idx 1 = 0 by simp [q3_idx_eq]]
  rfl

lemma iqr_single (x : ℚ) : iqr [x] = 0 := by
  show q3 [x] - q1 [x] = 0
  rw [q3_single, q1_single, sub_self]

lemma lower_fence_single (x : ℚ) : lower_fence [x] = x := by
  show q1 [x] - 3/2 * iqr [x] = x
  rw [q1_single, iqr_single]
  ring

lemma upper_fence_single (x : ℚ) : upper_fence [x] = x := by
  show q3 [x] + 3/2 * iqr [x] = x
  rw [q3_single, iqr_single]
  ring

lemma outliers_single (x : ℚ) : outliers [x] = [] := by
  show (sorted_data [x]).filter (fun y =>
    decide (y < lower_fence [x]) || decide (upper_fence [x] < y)) = []
  rw [lower_fence_single, upper_fence_single]
  simp [sorted_data, List.insertionSort, List.orderedInsert, List.filter]

/-! ## The four-way classification -/

lemma category_exactly_one (data : List ℚ) (x : ℚ) :
    (if in_lower_region data x then 1 else 0) +
    (if in_box data x then 1 else 0) +
    (if in_upper_region data x then 1 else 0) +
    (if is_outlier data x then 1 else 0) = (1 : ℕ) := by
  have hq := q1_le_q3 data
  cases hout : is_outlier data x with
  | true => simp [in_lower_region, in_box, in_upper_region, hout]
  | false =>
    by_cases h3 : x < q1 data
    · have hb : ¬(q1 data ≤ x) := not_le.mpr h3
      have hu : ¬(q3 data < x) := not_lt.mpr (le_trans (le_of_lt h3) hq)
      simp [in_lower_region, in_box, in_upper_region, hout, h3, hb, hu]
    · by_cases h4 : x ≤ q3 data
      · have hu : ¬(q3 data < x) := not_lt.mpr h4
        simp [in_lower_region, in_box, in_upper_region, hout, h3, h4, hu,
          not_lt.mp h3]
      · have hu : q3 data < x := not_le.mp h4
        simp [in_lower_region, in_box, in_upper_region, hout, h3, h4, hu]

lemma countP_categories (data : List ℚ) : ∀ l : List ℚ,
    l.countP (in_lower_region data) + l.countP (in_box data) +
    l.countP (in_upper_region data) + l.countP (is_outlier data) = l.length := by
  intro l
  induction l with
  | nil => simp
  | cons a t ih =>
    simp only [List.countP_cons, List.length_cons]
    have h := category_exactly_one data a
    omega

/-! ## NaN behaviour of the sort -/

lemma pcmp_none_right (x : F) : pcmp x Option.none = Option.none := by
  cases x <;> rfl

lemma insertByPcmp_none_cons (y : F) (ys : List F) :
    insertByPcmp Option.none (y :: ys) = Outcome.panicked := by
  cases y <;> rfl

lemma insertByPcmp_cons_none (x : F) (ys : List F) :
    insertByPcmp x (Option.none :: ys) = Outcome.panicked := by
  show (match pcmp x Option.none with
    | Option.none => Outcome.panicked
    | some Ordering.gt =>
      match insertByPcmp x ys with
      | .ok zs => .ok (Option.none :: zs)
      | .panicked => .panicked
    | some _ => .ok (x :: Option.none :: ys)) = Outcome.panicked
  rw [pcmp_none_right]

lemma eq_map_some_of_not_mem_none : ∀ (xs : List F), Option.none ∉ xs →
    ∃ l : List ℚ, xs = l.map some
  | [], _ => ⟨[], rfl⟩
  | x :: xs, h => by
    rcases x with _ | a
    · exact absurd (List.mem_cons_self _ _) h
    · obtain ⟨l, hl⟩ := eq_map_some_of_not_mem_none xs
        (fun hh => h (List.mem_cons_of_mem _ hh))
      exact ⟨a :: l, by rw [hl]; rfl⟩

/-- Any input with two or more elements among which a NaN makes the
modelled sort panic: some comparison must involve the NaN. -/
lemma sortByPcmp_panics_of_nan : ∀ (data : List F), Option.none ∈ data →
    2 ≤ data.length → sortByPcmp data = Outcome.panicked := by
  intro data
  induction data with
  | nil => simp
  | cons x xs ih =>
    intro hmem hlen
    have hxs1 : 1 ≤ xs.length := by
      simp only [List.length_cons] at hlen; omega
    by_cases hnan : Option.none ∈ xs
    · by_cases h2 : 2 ≤ xs.length
      · show (match sortByPcmp xs with
          | .ok s => insertByPcmp x s
          | .panicked => .panicked) = Outcome.panicked
        rw [ih hnan h2]
      · have hone : xs.length = 1 := by omega
        obtain ⟨a, rfl⟩ := List.length_eq_one.mp hone
        have ha : Option.none = a := by simpa using hnan
        subst ha
        show (match sortByPcmp [Option.none] with
          | .ok s => insertByPcmp x s
          | .panicked => .panicked) = Outcome.panicked
        rw [show sortByPcmp [Option.none] = .ok [Option.none] from rfl]
        exact insertByPcmp_cons_none x []
    · have hx : x = Option.none := by
        rcases List.mem_cons.mp hmem with h | h
        · exact h.symm
        · exact absurd h hnan
      subst hx
      obtain ⟨l, rfl⟩ := eq_map_some_of_not_mem_none xs hnan
      show (match sortByPcmp (l.map some) with
        | .ok s => insertByPcmp Option.none s
        | .panicked => .panicked) = Outcome.panicked
      rw [sortByPcmp_map_some]
      have hlen2 : (List.insertionSort (· ≤ ·) l).length = l.length :=
        List.length_insertionSort _ l
      have hne : (List.insertionSort (· ≤ ·) l).map some ≠ [] := by
        intro hc
        have h0 : l.length = 0 := by
          have hcl := congrArg List.length hc
          simpa [hlen2] using hcl
        rw [List.length_map] at hxs1
        omega
      obtain ⟨y, ys, hys⟩ := List.exists_cons_of_ne_nil hne
      rw [hys]
      exact insertByPcmp_none_cons y ys

/-! ## Claims -/

/-- C1: for every non-empty sequence of samples of length `n` the engine
works on an ascending sorted copy of the input and selects
`q1 = sorted[floor(n * 0.25)]`, `median = sorted[floor(n * 0.5)]`,
`q3 = sorted[floor(n * 0.75)]` (the floored indices being `n/4`, `n/2`
and `3n/4`, so the quartiles are actual sample values — no interpolation
between ranks), and derives `iqr = q3 - q1 ≥ 0`,
`lower_fence = q1 - 1.5*iqr` and `upper_fence = q3 + 1.5*iqr`. -/
theorem quartiles_nearest_rank_floor (data : List ℚ) (h : data ≠ []) :
    List.Sorted (· ≤ ·) (sorted_data data) ∧ (sorted_data data).Perm data ∧
    q1 data = (sorted_data data).getD (q1_idx data.length) 0 ∧
    median data = (sorted_data data).getD (q2_idx data.length) 0 ∧
    q3 data = (sorted_data data).getD (q3_idx data.length) 0 ∧
    q1_idx data.length = data.length / 4 ∧
    q2_idx data.length = data.length / 2 ∧
    q3_idx data.length = 3 * data.length / 4 ∧
    q1 data ∈ data ∧ median data ∈ data ∧ q3 data ∈ data ∧
    iqr data = q3 data - q1 data ∧ 0 ≤ iqr data ∧
    lower_fence data = q1 data - 3/2 * iqr data ∧
    upper_fence data = q3 data + 3/2 * iqr data :=
  ⟨sorted_data_sorted data, sorted_data_perm data, rfl, rfl, rfl,
    q1_idx_eq _, q2_idx_eq _, q3_idx_eq _,
    q1_mem data h, median_mem data h, q3_mem data h,
    rfl, iqr_nonneg data, rfl, rfl⟩

/-- C10: for every non-empty sample sequence of length `n` the three
quartile indices `(n as f64 * c) as usize`, `c ∈ {0.25, 0.5, 0.75}`, are
strictly less than `n`, so the three indexing operations into the sorted
copy are in bounds and the computation does not panic; indexing can only
fail on empty input. -/
theorem quartile_indices_in_bounds (data : List ℚ) (h : data ≠ []) :
    q1_idx data.length < data.length ∧ q2_idx data.length < data.length ∧
    q3_idx data.length < data.length ∧
    create_box_plot (data.map some) ≠ Outcome.panicked := by
  have hn : data.length ≠ 0 := fun hh => h (List.length_eq_zero.mp hh)
  refine ⟨q1_idx_lt _ hn, q2_idx_lt _ hn, q3_idx_lt _ hn, ?_⟩
  rw [create_box_plot_map_some data h]
  intro hc
  exact Outcome.noConfusion hc

/-- Witness for C1 at `[1,...,9,100]`. -/
theorem quartiles_nearest_rank_floor_witness :
    List.Sorted (· ≤ ·) (sorted_data data10) ∧ (sorted_data data10).Perm data10 ∧
    q1 data10 = (sorted_data data10).getD (q1_idx data10.length) 0 ∧
    median data10 = (sorted_data data10).getD (q2_idx data10.length) 0 ∧
    q3 data10 = (sorted_data data10).getD (q3_idx data10.length) 0 ∧
    q1_idx data10.length = data10.length / 4 ∧
    q2_idx data10.length = data10.length / 2 ∧
    q3_idx data10.length = 3 * data10.length / 4 ∧
    q1 data10 ∈ data10 ∧ median data10 ∈ data10 ∧ q3 data10 ∈ data10 ∧
    iqr data10 = q3 data10 - q1 data10 ∧ 0 ≤ iqr data10 ∧
    lower_fence data10 = q1 data10 - 3/2 * iqr data10 ∧
    upper_fence data10 = q3 data10 + 3/2 * iqr data10 :=
  quartiles_nearest_rank_floor data10 (by simp [data10])

/-- Witness for C10 at `[1,...,9,100]`. -/
theorem quartile_indices_in_bounds_witness :
    q1_idx data10.length < data10.length ∧
    q2_idx data10.length < data10.length ∧
    q3_idx data10.length < data10.length ∧
    create_box_plot (data10.map some) ≠ Outcome.panicked :=
  quartile_indices_in_bounds data10 (by simp [data10])

/-- C2 is false on the code at `[1,2,3,4,5,6,7,8,9,100]`: the smallest
sample `≥ lower_fence` is `1` and the largest sample `≤ upper_fence` is
`9`, but the outer endpoints of the drawn whisker segments are the
fences themselves, `-4.5` and `15.5` — the code never searches for the
nearest sample inside a fence. -/
theorem whisker_endpoints_not_nearest_samples :
    spec_whisker_min data10 = 1 ∧ (lower_whisker data10).1 = -9/2 ∧
    (lower_whisker data10).1 ≠ spec_whisker_min data10 ∧
    spec_whisker_max data10 = 9 ∧ (upper_whisker data10).2 = 31/2 ∧
    (upper_whisker data10).2 ≠ spec_whisker_max data10 := by
  have h3 : (lower_whisker data10).1 = -9/2 := lower_fence_data10
  have h4 : (upper_whisker data10).2 = 31/2 := upper_fence_data10
  refine ⟨spec_whisker_min_data10, h3, ?_, spec_whisker_max_data10, h4, ?_⟩
  · rw [h3, spec_whisker_min_data10]; norm_num
  · rw [h4, spec_whisker_max_data10]; norm_num

/-- C2 (amended): the whisker segments the code emits are
`[lower_fence, q1]` and `[q3, upper_fence]`: their outer endpoints are
the fences themselves, not the most extreme samples within the fences,
and no fallback logic exists. -/
theorem whisker_segments_are_fences (l : List ℚ) (h : l ≠ []) :
    ∃ r : BoxPlotF, create_box_plot (l.map some) = Outcome.ok r ∧
      r.whisker_lo = (r.lower_fence, r.q1) ∧
      r.whisker_hi = (r.q3, r.upper_fence) ∧
      r.lower_fence = some (lower_fence l) ∧
      r.upper_fence = some (upper_fence l) ∧
      r.q1 = some (q1 l) ∧ r.q3 = some (q3 l) :=
  ⟨_, create_box_plot_map_some l h, rfl, rfl, rfl, rfl, rfl, rfl⟩

/-- Witness for the amended C2 at `[1,...,9,100]`. -/
theorem whisker_segments_are_fences_witness :
    ∃ r : BoxPlotF, create_box_plot (data10.map some) = Outcome.ok r ∧
      r.whisker_lo = (r.lower_fence, r.q1) ∧
      r.whisker_hi = (r.q3, r.upper_fence) ∧
      r.lower_fence = some (lower_fence data10) ∧
      r.upper_fence = some (upper_fence data10) ∧
      r.q1 = some (q1 data10) ∧ r.q3 = some (q3 data10) :=
  whisker_segments_are_fences data10 (by simp [data10])

/-- C3: every sample is classified into exactly one of the four
categories (lower whisker side, box, upper whisker side, outlier), and
the four category counts sum to the input length: no sample is dropped
and none lands in two categories. -/
theorem classification_partition (data : List ℚ) :
    count_lower data + count_box data + count_upper data +
      count_outliers data = data.length ∧
    ∀ x ∈ data,
      (if in_lower_region data x then 1 else 0) +
        (if in_box data x then 1 else 0) +
        (if in_upper_region data x then 1 else 0) +
        (if is_outlier data x then 1 else 0) = (1 : ℕ) :=
  ⟨countP_categories data data, fun x _ => category_exactly_one data x⟩

/-- Witness for C3 at `[1,...,9,100]` and the sample `100`. -/
theorem classification_partition_witness :
    count_lower data10 + count_box data10 + count_upper data10 +
      count_outliers data10 = data10.length ∧
    (if in_lower_region data10 100 then 1 else 0) +
      (if in_box data10 100 then 1 else 0) +
      (if in_upper_region data10 100 then 1 else 0) +
      (if is_outlier data10 100 then 1 else 0) = (1 : ℕ) :=
  ⟨(classification_partition data10).1,
    (classification_partition data10).2 100 (by simp [data10])⟩

/-- C4: for every non-empty sample sequence the statistics are ordered
`whisker_min ≤ q1 ≤ median ≤ q3 ≤ whisker_max`, both when the whisker
endpoints are read as the outer endpoints of the drawn segments (the
fences) and when they are read as the spec's nearest-sample-in-fence
values. -/
theorem box_ordering (data : List ℚ) (h : data ≠ []) :
    (lower_whisker data).1 ≤ q1 data ∧ q1 data ≤ median data ∧
    median data ≤ q3 data ∧ q3 data ≤ (upper_whisker data).2 ∧
    spec_whisker_min data ≤ q1 data ∧ q3 data ≤ spec_whisker_max data :=
  ⟨lower_fence_le_q1 data, q1_le_median data h, median_le_q3 data h,
    q3_le_upper_fence data, spec_whisker_min_le_q1 data h,
    q3_le_spec_whisker_max data h⟩

/-- Witness for C4 at `[1,...,9,100]`. -/
theorem box_ordering_witness :
    (lower_whisker data10).1 ≤ q1 data10 ∧ q1 data10 ≤ median data10 ∧
    median data10 ≤ q3 data10 ∧ q3 data10 ≤ (upper_whisker data10).2 ∧
    spec_whisker_min data10 ≤ q1 data10 ∧ q3 data10 ≤ spec_whisker_max data10 :=
  box_ordering data10 (by simp [data10])

/-- C5: the outlier list holds exactly the samples strictly outside a
fence (fence-equal samples are not outliers), and it is emitted in
ascending order (it is a filter of the sorted copy). -/
theorem outliers_strictly_outside_fences (data : List ℚ) :
    List.Sorted (· ≤ ·) (outliers data) ∧
    (outliers data).Perm (data.filter fun x =>
      decide (x < lower_fence data) || decide (upper_fence data < x)) ∧
    (∀ x ∈ outliers data, x < lower_fence data ∨ upper_fence data < x) ∧
    (∀ x ∈ data, (x = lower_fence data ∨ x = upper_fence data) →
      x ∉ outliers data) := by
  refine ⟨(sorted_data_sorted data).filter _,
    (sorted_data_perm data).filter _, ?_, ?_⟩
  · intro x hx
    have h2 := (List.mem_filter.mp hx).2
    simpa only [Bool.or_eq_true, decide_eq_true_eq] using h2
  · rintro x hx (rfl | rfl) hmem
    · have h2 := (List.mem_filter.mp hmem).2
      have hle := lower_fence_le_upper_fence data
      simp only [Bool.or_eq_true, decide_eq_true_eq] at h2
      rcases h2 with h2 | h2
      · exact lt_irrefl _ h2
      · exact absurd h2 (not_lt.mpr hle)
    · have h2 := (List.mem_filter.mp hmem).2
      have hle := lower_fence_le_upper_fence data
      simp only [Bool.or_eq_true, decide_eq_true_eq] at h2
      rcases h2 with h2 | h2
      · exact absurd h2 (not_lt.mpr hle)
      · exact lt_irrefl _ h2

/-- Witness for C5: at `[1,...,9,100]` the outlier `100` is strictly
outside a fence. -/
theorem outliers_strictly_outside_fences_witness :
    (100 : ℚ) < lower_fence data10 ∨ upper_fence data10 < 100 :=
  (outliers_strictly_outside_fences data10).2.2.1 100 (by
    rw [outliers_data10]; simp)

/-- C6 is false on the code: on the empty input the fragment panics
(index out of bounds on the empty sorted vector) — a crash, not a
raised `EmptyInputError` value that a caller could handle. -/
theorem empty_input_panics : create_box_plot ([] : List F) = Outcome.panicked :=
  rfl

/-- C6 (amended): on empty input `create_box_plot` panics from
out-of-bounds indexing instead of returning an error value (in the
binary the panic aborts the whole run); on any non-empty NaN-free input
it returns normally. -/
theorem empty_input_panics_nonempty_ok :
    create_box_plot ([] : List F) = Outcome.panicked ∧
    ∀ l : List ℚ, l ≠ [] → ∃ r, create_box_plot (l.map some) = Outcome.ok r :=
  ⟨rfl, fun l h => ⟨_, create_box_plot_map_some l h⟩⟩

/-- Witness for the amended C6 at `[5]`. -/
theorem empty_input_panics_nonempty_ok_witness :
    ∃ r, create_box_plot (([(5:ℚ)]).map some) = Outcome.ok r :=
  empty_input_panics_nonempty_ok.2 [5] (by simp)

/-- C7 is false on the code: sorting `[NaN, 0.0]` calls
`partial_cmp(...).unwrap()` on a NaN comparison, which returns `None`
and panics — the comparator is not total on NaN. -/
theorem sort_panics_on_nan_concrete :
    sortByPcmp [Option.none, some 0] = Outcome.panicked ∧
    create_box_plot [Option.none, some 0] = Outcome.panicked :=
  ⟨rfl, rfl⟩

/-- C7 (amended): the sort faults at runtime on every input that holds
a NaN among at least two samples (any comparison sort must compare the
NaN, and `partial_cmp(...).unwrap()` then panics); only on NaN-free
inputs is the comparator total, and there the sort returns the
ascending sorted copy without fault. -/
theorem sort_comparator_nan_behaviour :
    (∀ data : List F, Option.none ∈ data → 2 ≤ data.length →
      sortByPcmp data = Outcome.panicked) ∧
    ∀ l : List ℚ, sortByPcmp (l.map some) =
      Outcome.ok ((List.insertionSort (· ≤ ·) l).map some) :=
  ⟨sortByPcmp_panics_of_nan, sortByPcmp_map_some⟩

/-- Witness for the amended C7. -/
theorem sort_comparator_nan_behaviour_witness :
    sortByPcmp [some 1, Option.none] = Outcome.panicked ∧
    sortByPcmp (([(2:ℚ), 1]).map some) =
      Outcome.ok ((List.insertionSort (· ≤ ·) [(2:ℚ), 1]).map some) :=
  ⟨sort_comparator_nan_behaviour.1 [some 1, Option.none] (by simp) (by simp),
    sort_comparator_nan_behaviour.2 [2, 1]⟩

/-- C8: for a singleton input `[x]` (in particular `[5.0]`) all three
quartile indices resolve to `0` with no special-casing, so
`q1 = median = q3 = x`, `iqr = 0`, both fences collapse to `x`, the
outlier list is empty, and both whisker segments degenerate to the
point `x`. -/
theorem single_element_no_special_case (x : ℚ) :
    q1_idx 1 = 0 ∧ q2_idx 1 = 0 ∧ q3_idx 1 = 0 ∧
    q1 [x] = x ∧ median [x] = x ∧ q3 [x] = x ∧ iqr [x] = 0 ∧
    lower_fence [x] = x ∧ upper_fence [x] = x ∧ outliers [x] = [] ∧
    lower_whisker [x] = (x, x) ∧ upper_whisker [x] = (x, x) ∧
    create_box_plot [some x] = Outcome.ok
      { q1 := some x, median := some x, q3 := some x, iqr := some 0,
        lower_fence := some x, upper_fence := some x,
        whisker_lo := (some x, some x), whisker_hi := (some x, some x),
        outliers := [] } := by
  refine ⟨by simp [q1_idx_eq], by simp [q2_idx_eq], by simp [q3_idx_eq],
    q1_single x, median_single x, q3_single x, iqr_single x,
    lower_fence_single x, upper_fence_single x, outliers_single x, ?_, ?_, ?_⟩
  · show (lower_fence [x], q1 [x]) = (x, x)
    rw [lower_fence_single, q1_single]
  · show (q3 [x], upper_fence [x]) = (x, x)
    rw [q3_single, upper_fence_single]
  · rw [show ([some x] : List F) = ([x] : List ℚ).map some from rfl,
      create_box_plot_map_some [x] (by simp)]
    rw [q1_single, median_single, q3_single, iqr_single, lower_fence_single,
      upper_fence_single, outliers_single]
    rfl

/-- C9 is false on the code: at `[1,...,9,100]` the drawn upper whisker
segment is `[q3, upper_fence] = [8, 15.5]`; neither endpoint is `9`,
the largest sample `≤ upper_fence` that the claim calls `whisker_max`. -/
theorem upper_whisker_endpoint_not_nine :
    upper_whisker data10 = (8, 31/2) ∧ ((31:ℚ)/2) ≠ 9 ∧ ((8:ℚ)) ≠ 9 := by
  refine ⟨?_, by norm_num, by norm_num⟩
  show (q3 data10, upper_fence data10) = (8, 31/2)
  rw [q3_data10, upper_fence_data10]

/-- C9 (amended): on `[1,2,3,4,5,6,7,8,9,100]` the code computes
`q1 = 3`, `median = 6`, `q3 = 8`, `iqr = 5`, fences `-4.5` and `15.5`,
and exactly one outlier `100`; the upper whisker segment drawn is
`[8, 15.5]` — its outer endpoint is the fence `15.5`, while the largest
sample `≤ 15.5` (the spec's `whisker_max`) is `9`. -/
theorem concrete_scenario_data10 :
    create_box_plot (data10.map some) = Outcome.ok
      { q1 := some 3, median := some 6, q3 := some 8, iqr := some 5,
        lower_fence := some (-9/2), upper_fence := some (31/2),
        whisker_lo := (some (-9/2), some 3),
        whisker_hi := (some 8, some (31/2)),
        outliers := [some 100] } ∧
    spec_whisker_max data10 = 9 := by
  refine ⟨?_, spec_whisker_max_data10⟩
  rw [create_box_plot_map_some data10 data10_ne_nil]
  rw [q1_data10, median_data10, q3_data10, iqr_data10, lower_fence_data10,
    upper_fence_data10, outliers_data10]
  rfl

end CountFasta
